import Mathlib

/-!
Shallow embedding of the PDA (Personal Deep Research Agent) repository:
the workflow state (src/workflow/state.py), the Planner agent
(src/agents/planner.py), the Researcher agent (src/agents/researcher.py)
and the workflow node functions (src/workflow/nodes.py).

Modelling conventions:
* Python dictionaries with a known key set become structures whose fields
  are `Option`-valued where the code accesses them with `.get` (key may be
  absent).  A bare subscript access `d['k']` on a possibly-absent key, or
  a method call on a possibly-`None` value, is modelled with
  `Except Unit`, the `.error ()` case standing for a raised exception
  (`KeyError` / `AttributeError`).  JSON `null` values for a key are not distinguished from the
  key being absent (no claim depends on the distinction).
* Python `int` is modelled as `Int` (unbounded); Python list indices and
  `str.find` results are `Int` with `-1` for "not found", as in CPython.
* The language-model backend and the external search tools are opaque to
  the code under analysis; they are modelled as explicit oracle functions
  (fields of `PlannerModel` / `Researcher`), and the raw LLM response text
  consumed by the plan-creation / plan-revision JSON extraction is passed
  in directly as a `List Char`.  `json.loads` is likewise an oracle
  `List Char → Option PlanJson` (the standard-library JSON parser is not
  part of this repository).
* Python truthiness of a plan dictionary: `None` is modelled by `none`.
  The only falsy non-`None` dictionary is the empty dictionary; a plan
  whose modelled fields are all absent behaves identically to `{}` in
  every embedded function (each one then reads only empty task lists), so
  the embedding does not represent it separately.
-/

/-- Mirror of the `SubTask` dictionaries (src/workflow/state.py, and as
produced by parsing backend JSON): every key may be absent. -/
structure SubTask where
  task_id : Option Int := none
  description : Option String := none
  search_queries : Option (List String) := none
  sources : Option (List String) := none
  status : Option String := none
  priority : Option Int := none
deriving Repr, DecidableEq

/-- Mirror of the plan dictionaries (`PlanStructure` in
src/workflow/state.py).  The field `sub_task` (singular) is the distinct
dictionary key read by the status-stamping loop in
`Planner.create_research_plan` (src/agents/planner.py line 77); it is a
different key from `sub_tasks` and is modelled separately. -/
structure PlanJson where
  research_goal : Option String := none
  sub_tasks : Option (List SubTask) := none
  sub_task : Option (List SubTask) := none
  completion_criteria : Option String := none
  estimated_iterations : Option Int := none
deriving Repr, DecidableEq

/-- One item inside a search-result batch (`IndividualResult` in
src/workflow/state.py).  Its contents are irrelevant to the claims. -/
structure SearchItem where
  title : Option String := none
  url : Option String := none
  snippet : Option String := none
deriving Repr, DecidableEq

/-- Mirror of the `SearchResult` dictionaries (src/workflow/state.py):
one batch of results for a `(query, source)` pair. -/
structure SearchResult where
  query : String := ""
  source : String := ""
  results : List SearchItem := []
  error : Option String := none
  task_id : Option Int := none
  timestamp : Option String := none
deriving Repr, DecidableEq

/-- Mirror of `ResearchState` (src/workflow/state.py).  All twelve keys
are declared by the TypedDict and initialised by
`Coordinator.initialize_research`, so they are plain (non-`Option`)
fields except where the declared type itself is `Optional`. -/
structure ResearchState where
  query : String := ""
  research_plan : Option PlanJson := none
  plan_approved : Bool := false
  research_results : List SearchResult := []
  current_task : Option SubTask := none
  iteration_count : Int := 0
  max_iterations : Int := 0
  final_report : Option String := none
  current_step : String := ""
  needs_more_research : Bool := true
  user_feedback : Option String := none
  output_format : String := "markdown"
deriving Repr, DecidableEq

/-- The opening-brace character, `Char.ofNat 123`. -/
def lbrace : Char := Char.ofNat 123

/-- The closing-brace character, `Char.ofNat 125`. -/
def rbrace : Char := Char.ofNat 125

/-- Python `s.find(c)`: index of the first occurrence, `-1` if absent. -/
def pyFind (s : List Char) (c : Char) : Int :=
  match s.findIdx? (· = c) with
  | some i => (i : Int)
  | none => -1

/-- Python `s.rfind(c)`: index of the last occurrence, `-1` if absent. -/
def pyRfind (s : List Char) (c : Char) : Int :=
  match s.reverse.findIdx? (· = c) with
  | some i => ((s.length : Int) - 1 - (i : Int))
  | none => -1

/-- Python `s[start:stop]` for `0 ≤ start` (the only way the code uses
it). -/
def pySlice (s : List Char) (start stop : Int) : List Char :=
  (s.drop start.toNat).take (stop - start).toNat

/-- The fallback plan built by `Planner._create_fallback_plan`
(src/agents/planner.py lines 85-109). -/
def create_fallback_plan (query : String) : PlanJson :=
  { research_goal := some query
    sub_tasks := some
      [{ task_id := some 1
         description := some ("Research: " ++ query)
         search_queries := some [query]
         sources := some ["tavily"]
         status := some "pending"
         priority := some 1 }]
    completion_criteria := some "Gather sufficient information to answer the query"
    estimated_iterations := some 2 }

/-- The status-stamping loop of `Planner.create_research_plan`
(src/agents/planner.py lines 77-78): it iterates over
`plan.get('sub_task', [])` — the singular key — and sets each of those
task dictionaries' `status` to `'pending'` in place.  The `sub_tasks`
(plural) list is untouched. -/
def stampSubTask (p : PlanJson) : PlanJson :=
  { p with sub_task := p.sub_task.map (List.map fun t => { t with status := some "pending" }) }

/-- `Planner.create_research_plan` (src/agents/planner.py lines 44-83),
with the backend's raw response text and the `json.loads` parser passed
as parameters.  Control flow of the `try` block:
* delimiters found and `json.loads` succeeds: store the plan, overwrite
  `max_iterations` with `plan.get('estimated_iterations', 3)`, run the
  stamping loop (which mutates the stored plan object);
* delimiters missing: same tail, with the fallback plan;
* delimiters found but `json.loads` raises `JSONDecodeError`: the
  `except` arm only stores the fallback plan (`max_iterations` is left
  untouched). -/
def create_research_plan (jsonLoads : List Char → Option PlanJson)
    (response : List Char) (st : ResearchState) : ResearchState :=
  let start := pyFind response lbrace
  let stop := pyRfind response rbrace + 1
  if start ≠ -1 ∧ stop > start then
    match jsonLoads (pySlice response start stop) with
    | some plan =>
        { st with
          research_plan := some (stampSubTask plan)
          max_iterations := plan.estimated_iterations.getD 3 }
    | none =>
        { st with research_plan := some (create_fallback_plan st.query) }
  else
    let plan := create_fallback_plan st.query
    { st with
      research_plan := some (stampSubTask plan)
      max_iterations := plan.estimated_iterations.getD 3 }

/-- `Planner.modify_plan` (src/agents/planner.py lines 111-144): replace
the plan only when delimiters are found and the slice parses; otherwise
(no delimiters: the `if` has no `else`; parse error: the `except` arm is
`pass`) the state is returned unchanged. -/
def modify_plan (jsonLoads : List Char → Option PlanJson)
    (response : List Char) (st : ResearchState) : ResearchState :=
  let start := pyFind response lbrace
  let stop := pyRfind response rbrace + 1
  if start ≠ -1 ∧ stop > start then
    match jsonLoads (pySlice response start stop) with
    | some modified => { st with research_plan := some modified }
    | none => st
  else st

/-- The condition under which the JSON-extraction step of plan creation /
plan revision fails: the `'\x7b'`/`'\x7d'` delimiters are missing, or the
extracted substring does not parse. -/
def extractionFails (jsonLoads : List Char → Option PlanJson)
    (response : List Char) : Prop :=
  let start := pyFind response lbrace
  let stop := pyRfind response rbrace + 1
  ¬(start ≠ -1 ∧ stop > start) ∨ jsonLoads (pySlice response start stop) = none

instance (jsonLoads : List Char → Option PlanJson) (response : List Char) :
    Decidable (extractionFails jsonLoads response) := by
  unfold extractionFails; infer_instance

/-- The condition under which `json.loads` raises a `JSONDecodeError`
inside `create_research_plan` (delimiters were found, parse failed). -/
def decodeErrorOccurs (jsonLoads : List Char → Option PlanJson)
    (response : List Char) : Prop :=
  let start := pyFind response lbrace
  let stop := pyRfind response rbrace + 1
  (start ≠ -1 ∧ stop > start) ∧ jsonLoads (pySlice response start stop) = none

instance (jsonLoads : List Char → Option PlanJson) (response : List Char) :
    Decidable (decodeErrorOccurs jsonLoads response) := by
  unfold decodeErrorOccurs; infer_instance

/-- The argument tuple handed to the sufficiency-judgment prompt
(`planner_evaluate_context`) in `Planner.evaluate_context_sufficiency`. -/
structure EvalPrompt where
  query : String
  research_goal : String
  completion_criteria : String
  results_count : Int
  current_iteration : Int
  max_iterations : Int
deriving Repr, DecidableEq

/-- Python `s.strip()`: drop whitespace from both ends. -/
def pyStrip (s : List Char) : List Char :=
  ((s.dropWhile Char.isWhitespace).reverse.dropWhile Char.isWhitespace).reverse

/-- Python `s.upper()` (ASCII case mapping suffices here). -/
def pyUpper (s : List Char) : List Char := s.map Char.toUpper

/-- The opaque language-model backend as seen by the Planner's
sufficiency check: the raw text it returns for a given prompt. -/
structure PlannerModel where
  evalResponse : EvalPrompt → List Char

/-- `Planner.evaluate_context_sufficiency` (src/agents/planner.py lines
146-178).  Guards, in source order: `iteration >= max_iterations` and
`not results` return `False` before any backend call.  A `None` plan that
survives both guards raises (`None.get`), modelled as `.error ()`.
Otherwise the answer is `response.strip().upper() == "YES"`. -/
def evaluate_context_sufficiency (p : PlannerModel) (st : ResearchState) :
    Except Unit Bool :=
  if st.iteration_count ≥ st.max_iterations then .ok false
  else if st.research_results = [] then .ok false
  else
    match st.research_plan with
    | none => .error ()
    | some plan =>
        let prompt : EvalPrompt :=
          { query := st.query
            research_goal := plan.research_goal.getD st.query
            completion_criteria := plan.completion_criteria.getD "N/A"
            results_count := (st.research_results.length : Int)
            current_iteration := st.iteration_count + 1
            max_iterations := st.max_iterations }
        .ok (pyUpper (pyStrip (p.evalResponse prompt)) = "YES".toList)

/-- The sort key used by `Planner.get_next_task`:
`(t.get('priority', 99), t.get('task_id', 0))`. -/
def taskKey (t : SubTask) : Int × Int :=
  (t.priority.getD 99, t.task_id.getD 0)

/-- Lexicographic order on key tuples (Python tuple comparison). -/
def keyLex (a b : Int × Int) : Prop :=
  a.1 < b.1 ∨ (a.1 = b.1 ∧ a.2 ≤ b.2)

instance (a b : Int × Int) : Decidable (keyLex a b) := by
  unfold keyLex; infer_instance

/-- Boolean lexicographic comparison of task keys (Python tuple `<=`). -/
def taskKeyLe (a b : SubTask) : Bool :=
  decide (keyLex (taskKey a) (taskKey b))

/-- `Planner.get_next_task` (src/agents/planner.py lines 180-203): sort
all subtasks by `(priority, id)` (Python's stable sort) and return the
first whose `status` is `'pending'`; `None` when the plan is falsy or no
task qualifies. -/
def get_next_task (st : ResearchState) : Option SubTask :=
  match st.research_plan with
  | none => none
  | some plan =>
      let tasks := (plan.sub_tasks.getD []).mergeSort taskKeyLe
      tasks.find? fun t => t.status = some "pending"

/-- Outcome of one underlying tool call (`self.tavily.search(query)`,
`self.arxiv.search(query)` or `asyncio.run(self.mcp.search(query))`):
either the tool returns its result dictionary, or it raises an exception
whose text is `msg`.  Each tool's `search` method returns a dictionary on
every non-raising path (src/tools/*.py). -/
inductive SearchOutcome where
  | ok (res : SearchResult)
  | exn (msg : String)
deriving Repr

/-- The `Researcher` agent (src/agents/researcher.py): `hasTavily` /
`hasMcp` record whether `self.tavily` / `self.mcp` were initialised (an
API key / server URL was supplied); `self.arxiv` is always initialised.
The three oracle fields are the external tools. -/
structure Researcher where
  hasTavily : Bool
  hasMcp : Bool
  tavilySearch : String → SearchOutcome
  arxivSearch : String → SearchOutcome
  mcpSearch : String → SearchOutcome

/-- `Researcher._search` (src/agents/researcher.py lines 110-145).  The
`try` wraps the whole dispatch: a raising tool call becomes the error
dictionary `{query, source, results: [], error: str(e)}`; an unsupported
or unconfigured source returns `None`. -/
def Researcher.search (r : Researcher) (query source : String) :
    Option SearchResult :=
  let run : SearchOutcome → Option SearchResult := fun
    | .ok res => some res
    | .exn msg => some { query := query, source := source, results := [], error := some msg }
  if source = "tavily" ∧ r.hasTavily then run (r.tavilySearch query)
  else if source = "arxiv" then run (r.arxivSearch query)
  else if source = "mcp" ∧ r.hasMcp then run (r.mcpSearch query)
  else none

/-- The `(query, source)` cross product iterated by `execute_task`, in
source order (outer loop over `search_queries`, inner over `sources`). -/
def taskPairs (task : SubTask) : List (String × String) :=
  (task.search_queries.getD []).flatMap fun q =>
    (task.sources.getD []).map fun s => (q, s)

/-- The inner result-accumulation loop of `execute_task`: each truthy
search result gets `result['task_id'] = task['task_id']` (a bare access
that raises `KeyError`, modelled `.error ()`, when the key is absent) and
is appended. -/
def collectLoop (r : Researcher) (tid? : Option Int) :
    List (String × String) → Except Unit (List SearchResult)
  | [] => .ok []
  | (q, s) :: rest =>
      match r.search q s with
      | some res =>
          match tid? with
          | none => .error ()
          | some tid =>
              match collectLoop r tid? rest with
              | .error e => .error e
              | .ok tail => .ok ({ res with task_id := some tid } :: tail)
      | none => collectLoop r tid? rest

/-- The mark-as-completed loop of `execute_task`: find the first subtask
whose `t.get('task_id')` equals `task['task_id']` (bare access inside the
loop body), set its status to `'completed'`, and `break`. -/
def markCompleted (tid? : Option Int) :
    List SubTask → Except Unit (List SubTask)
  | [] => .ok []
  | t :: ts =>
      match tid? with
      | none => .error ()
      | some tid =>
          if t.task_id = some tid then
            .ok ({ t with status := some "completed" } :: ts)
          else
            match markCompleted tid? ts with
            | .error e => .error e
            | .ok ts' => .ok (t :: ts')

/-- `Researcher.execute_task` (src/agents/researcher.py lines 62-109):
run every `(query, source)` pair, extend `state['research_results']` with
the batches collected, then mark the task completed in the plan.  When
the plan is absent (or has no `sub_tasks` key — including the falsy empty
dictionary, see the header note) the completion loop runs over nothing
and the plan is unchanged. -/
def Researcher.execute_task (r : Researcher) (st : ResearchState)
    (task : SubTask) : Except Unit ResearchState :=
  match collectLoop r task.task_id (taskPairs task) with
  | .error e => .error e
  | .ok results =>
      let st := { st with research_results := st.research_results ++ results }
      match st.research_plan with
      | none => .ok st
      | some plan =>
          match plan.sub_tasks with
          | none => .ok st
          | some l =>
              match markCompleted task.task_id l with
              | .error e => .error e
              | .ok l' => .ok { st with research_plan := some { plan with sub_tasks := some l' } }

/-- `WorkflowNodes.researcher_node` (src/workflow/nodes.py lines
95-121): set `current_step`, fetch the next pending task; if one exists,
increment `iteration_count` **before** executing it and record it as
`current_task`; otherwise clear `needs_more_research`. -/
def researcher_node (r : Researcher) (st : ResearchState) :
    Except Unit ResearchState :=
  let st := { st with current_step := "researching" }
  match get_next_task st with
  | some task =>
      let st := { st with iteration_count := st.iteration_count + 1 }
      match r.execute_task st task with
      | .error e => .error e
      | .ok st' => .ok { st' with current_task := some task }
  | none => .ok { st with needs_more_research := false }

/-- `WorkflowNodes.should_generate_report` (src/workflow/nodes.py lines
173-196): iteration cap first, then the sufficiency check, then the
pending-task check. -/
def should_generate_report (p : PlannerModel) (st : ResearchState) :
    Except Unit String :=
  if st.iteration_count ≥ st.max_iterations then .ok "rapporteur"
  else
    match evaluate_context_sufficiency p st with
    | .error e => .error e
    | .ok sufficient =>
        if sufficient then .ok "rapporteur"
        else
          match get_next_task st with
          | some _ => .ok "researcher"
          | none => .ok "rapporteur"

/-- The subtask list of the state's plan (empty for a `None` plan or a
plan without the `sub_tasks` key). -/
def planTasks (st : ResearchState) : List SubTask :=
  match st.research_plan with
  | none => []
  | some plan => plan.sub_tasks.getD []

/-- The underlying tool call dispatched by `_search` for `(q, s)` raises:
the source is routed to a configured tool and that tool's call throws. -/
def searchRaises (r : Researcher) (q s : String) : Prop :=
  (s = "tavily" ∧ r.hasTavily = true ∧ ∃ msg, r.tavilySearch q = .exn msg) ∨
  (s = "arxiv" ∧ ∃ msg, r.arxivSearch q = .exn msg) ∨
  (s = "mcp" ∧ r.hasMcp = true ∧ ∃ msg, r.mcpSearch q = .exn msg)

/-- The source string falls through every arm of `_search`'s dispatch:
it is not a configured `tavily`, not `arxiv`, and not a configured
`mcp`. -/
def sourceUnsupported (r : Researcher) (s : String) : Prop :=
  ¬(s = "tavily" ∧ r.hasTavily = true) ∧ s ≠ "arxiv" ∧ ¬(s = "mcp" ∧ r.hasMcp = true)

/-- Pure form of `collectLoop` once `task['task_id']` is known present:
the batches appended for the pairs, each tagged with the task id. -/
def collectPure (r : Researcher) (tid : Int) :
    List (String × String) → List SearchResult
  | [] => []
  | (q, s) :: rest =>
      match r.search q s with
      | some res => { res with task_id := some tid } :: collectPure r tid rest
      | none => collectPure r tid rest

/-- Pure form of `markCompleted` once `task['task_id']` is known present:
the first subtask with the matching id is stamped `'completed'`. -/
def markPure (tid : Int) : List SubTask → List SubTask
  | [] => []
  | t :: ts =>
      if t.task_id = some tid then { t with status := some "completed" } :: ts
      else t :: markPure tid ts

/-- A backend oracle whose sufficiency judgment is always affirmative. -/
def pYes : PlannerModel := { evalResponse := fun _ => "YES".toList }

/-- A stub researcher with no configured optional tools and an arxiv tool
that always raises. -/
def rStub : Researcher :=
  { hasTavily := false
    hasMcp := false
    tavilySearch := fun _ => .exn "stub"
    arxivSearch := fun _ => .exn "stub"
    mcpSearch := fun _ => .exn "stub" }

/-- A researcher whose tavily tool is configured but always raises. -/
def rExn : Researcher :=
  { rStub with
    hasTavily := true
    tavilySearch := fun _ => .exn "boom" }

/-- A concrete plan with one pending subtask. -/
def planPending : PlanJson :=
  { research_goal := some "g"
    sub_tasks := some [{ task_id := some 1, status := some "pending" }] }

/-- A concrete plan whose only subtask is already completed. -/
def planDone : PlanJson :=
  { research_goal := some "g"
    sub_tasks := some [{ task_id := some 1, status := some "completed" }] }

/-- A state past the iteration cap, with a pending task and non-empty
results, used to exercise the cap-first branch. -/
def stCap : ResearchState :=
  { query := "q"
    research_plan := some planPending
    research_results := [{ query := "q", source := "arxiv" }]
    iteration_count := 5
    max_iterations := 3 }

/-- A state on its first iteration with non-empty results and headroom
under the cap. -/
def stFresh : ResearchState :=
  { query := "q"
    research_plan := some planPending
    research_results := [{ query := "q", source := "arxiv" }]
    iteration_count := 0
    max_iterations := 3 }

/-- A state whose plan has no pending subtask. -/
def stDone : ResearchState :=
  { query := "q"
    research_plan := some planDone
    iteration_count := 0
    max_iterations := 3 }

/-- A `json.loads` oracle that always fails (nothing parses). -/
def loadsNone : List Char → Option PlanJson := fun _ => none

/-- A `json.loads` oracle that always yields `planDone` (a plan whose
subtask statuses arrive as `'completed'` from the backend). -/
def loadsDone : List Char → Option PlanJson := fun _ => some planDone

/-- A backend response with no brace delimiters at all. -/
def respPlain : List Char := ['n', 'o', 'p', 'e']

/-- The backend response `"\x7b\x7d"` (an opening brace immediately
followed by a closing brace): delimiters are found. -/
def respBraces : List Char := [Char.ofNat 123, Char.ofNat 125]

/-- A task routed entirely to the configured-but-raising tavily tool. -/
def taskTav : SubTask :=
  { task_id := some 1
    search_queries := some ["q"]
    sources := some ["tavily"]
    status := some "pending"
    priority := some 1 }

/-- A state whose plan holds exactly `taskTav`, pending. -/
def stTav : ResearchState :=
  { query := "q"
    research_plan := some { research_goal := some "g", sub_tasks := some [taskTav] }
    iteration_count := 0
    max_iterations := 3 }

/-- The plan-marking step of `execute_task`, as a function of the state
(defined for a known-present task id): the first subtask with the
matching id is stamped completed; a missing plan or missing `sub_tasks`
key leaves the state untouched. -/
def markPlan (tid : Int) (st : ResearchState) : ResearchState :=
  match st.research_plan with
  | none => st
  | some plan =>
      match plan.sub_tasks with
      | none => st
      | some l =>
          { st with research_plan := some { plan with sub_tasks := some (markPure tid l) } }

theorem stampSubTask_fallback (q : String) :
    stampSubTask (create_fallback_plan q) = create_fallback_plan q := by
  simp [stampSubTask, create_fallback_plan]

/-- C1: for every state in which `iteration_count >= max_iterations`,
`should_generate_report` returns `"rapporteur"`, for every backend oracle
(hence regardless of the sufficiency check's outcome) and regardless of
whether any subtask is still pending: the iteration cap is checked
first. -/
theorem C1_iteration_cap_first (p : PlannerModel) (st : ResearchState)
    (h : st.iteration_count ≥ st.max_iterations) :
    should_generate_report p st = .ok "rapporteur" := by
  unfold should_generate_report
  rw [if_pos h]

/-- Witness for C1: a concrete state past the cap, with a pending task,
non-empty results, and an oracle that would judge the context
sufficient. -/
theorem C1_witness :
    stCap.iteration_count ≥ stCap.max_iterations ∧
    should_generate_report pYes stCap = .ok "rapporteur" :=
  ⟨by decide, C1_iteration_cap_first pYes stCap (by decide)⟩

/-- C2 counterexample: a state with `iteration_count = 0`, non-empty
`research_results` and headroom under the cap, on which
`evaluate_context_sufficiency` does consult the backend and returns
`True` — contradicting the claim that `iterationCount = 0` short-circuits
to insufficient. -/
theorem C2_counterexample :
    stFresh.iteration_count = 0 ∧ stFresh.research_results ≠ [] ∧
    evaluate_context_sufficiency pYes stFresh = .ok true := by
  refine ⟨rfl, by decide, ?_⟩
  rfl

/-- C2 amended: `evaluate_context_sufficiency` returns `False` — for
every backend oracle, i.e. without consulting the backend — whenever
`research_results` is empty or `iteration_count >= max_iterations`; the
source has no `iteration_count = 0` short-circuit. -/
theorem C2_short_circuit (p : PlannerModel) (st : ResearchState)
    (h : st.research_results = [] ∨ st.iteration_count ≥ st.max_iterations) :
    evaluate_context_sufficiency p st = .ok false := by
  unfold evaluate_context_sufficiency
  rcases h with h | h
  · by_cases hc : st.iteration_count ≥ st.max_iterations
    · rw [if_pos hc]
    · rw [if_neg hc, if_pos h]
  · rw [if_pos h]

/-- Witness for C2's amended theorem: the empty-results short-circuit at
a concrete state, under an oracle that would have answered `"YES"`. -/
theorem C2_witness :
    ((stDone.research_results = [] ∨ stDone.iteration_count ≥ stDone.max_iterations) ∧
      evaluate_context_sufficiency pYes stDone = .ok false) :=
  ⟨Or.inl rfl, C2_short_circuit pYes stDone (Or.inl rfl)⟩

/-- C4: when the revision response fails JSON extraction (missing
delimiters or parse failure), `modify_plan` returns the state unchanged;
in particular a non-null pre-call plan survives as-is. -/
theorem C4_revision_failure_keeps_plan
    (jsonLoads : List Char → Option PlanJson) (response : List Char)
    (st : ResearchState) (plan0 : PlanJson)
    (hplan : st.research_plan = some plan0)
    (hfail : extractionFails jsonLoads response) :
    (modify_plan jsonLoads response st).research_plan = some plan0 ∧
    modify_plan jsonLoads response st = st := by
  have hst : modify_plan jsonLoads response st = st := by
    unfold modify_plan
    unfold extractionFails at hfail
    rcases hfail with h | h
    · rw [if_neg h]
    · by_cases hc : pyFind response lbrace ≠ -1 ∧
          pyRfind response rbrace + 1 > pyFind response lbrace
      · rw [if_pos hc, h]
      · rw [if_neg hc]
  exact ⟨by rw [hst, hplan], hst⟩

/-- Witness for C4: a delimiter-free response leaves a concrete state's
plan untouched. -/
theorem C4_witness :
    (stDone.research_plan = some planDone ∧ extractionFails loadsNone respPlain) ∧
    (modify_plan loadsNone respPlain stDone).research_plan = some planDone :=
  ⟨⟨rfl, by decide⟩,
    (C4_revision_failure_keeps_plan loadsNone respPlain stDone planDone rfl (by decide)).1⟩

/-- C3: whenever JSON extraction fails during plan creation (missing
delimiters, or the slice does not parse), the resulting state's
`research_plan` is the fallback plan: a single subtask covering the whole
query, with `estimated_iterations = 2`. -/
theorem C3_fallback_plan_on_parse_failure
    (jsonLoads : List Char → Option PlanJson) (response : List Char)
    (st : ResearchState) (hfail : extractionFails jsonLoads response) :
    (create_research_plan jsonLoads response st).research_plan
      = some (create_fallback_plan st.query) ∧
    (create_fallback_plan st.query).sub_tasks = some
      [{ task_id := some 1
         description := some ("Research: " ++ st.query)
         search_queries := some [st.query]
         sources := some ["tavily"]
         status := some "pending"
         priority := some 1 }] ∧
    (create_fallback_plan st.query).estimated_iterations = some 2 := by
  refine ⟨?_, rfl, rfl⟩
  unfold create_research_plan
  unfold extractionFails at hfail
  rcases hfail with h | h
  · rw [if_neg h]
    simp only [stampSubTask_fallback]
  · by_cases hc : pyFind response lbrace ≠ -1 ∧
        pyRfind response rbrace + 1 > pyFind response lbrace
    · rw [if_pos hc, h]
    · rw [if_neg hc]
      simp only [stampSubTask_fallback]

/-- Witness for C3: a delimiter-free response on a concrete state yields
the fallback plan. -/
theorem C3_witness :
    extractionFails loadsNone respPlain ∧
    (create_research_plan loadsNone respPlain stFresh).research_plan
      = some (create_fallback_plan stFresh.query) :=
  ⟨by decide,
    (C3_fallback_plan_on_parse_failure loadsNone respPlain stFresh (by decide)).1⟩

/-- C9 (implicit): whenever plan creation completes without a JSON decode
error (successful parse, or the missing-delimiters fallback), the
resulting `max_iterations` equals the stored plan's
`estimated_iterations` with default `3` — and the result does not depend
on the `max_iterations` the caller had put into the state, so a value
supplied to `ResearchWorkflow.run` before planning does not survive the
Plan stage. -/
theorem C9_planning_overwrites_max_iterations
    (jsonLoads : List Char → Option PlanJson) (response : List Char)
    (st : ResearchState) (h : ¬ decodeErrorOccurs jsonLoads response) :
    (∃ p, (create_research_plan jsonLoads response st).research_plan = some p ∧
        (create_research_plan jsonLoads response st).max_iterations
          = p.estimated_iterations.getD 3) ∧
    (∀ m : Int, create_research_plan jsonLoads response { st with max_iterations := m }
        = create_research_plan jsonLoads response st) := by
  unfold decodeErrorOccurs at h
  by_cases hc : pyFind response lbrace ≠ -1 ∧
      pyRfind response rbrace + 1 > pyFind response lbrace
  · cases hj : jsonLoads (pySlice response (pyFind response lbrace)
        (pyRfind response rbrace + 1)) with
    | none => exact absurd ⟨hc, hj⟩ h
    | some plan =>
        constructor
        · refine ⟨stampSubTask plan, ?_, ?_⟩ <;>
            simp [create_research_plan, hc, hj, stampSubTask]
        · intro m
          simp [create_research_plan, hc, hj]
  · constructor
    · refine ⟨stampSubTask (create_fallback_plan st.query), ?_, ?_⟩ <;>
        simp [create_research_plan, hc, stampSubTask, create_fallback_plan]
    · intro m
      simp [create_research_plan, hc]

/-- Witness for C9: a successfully parsed response overwrites a
caller-supplied `max_iterations` on a concrete state. -/
theorem C9_witness :
    ¬ decodeErrorOccurs loadsDone respBraces ∧
    (create_research_plan loadsDone respBraces
        { stFresh with max_iterations := 99 }
      = create_research_plan loadsDone respBraces stFresh) :=
  ⟨by decide,
    (C9_planning_overwrites_max_iterations loadsDone respBraces stFresh (by decide)).2 99⟩

/-- C7 at its failing input: the backend's plan JSON parses and carries a
subtask whose status is `'completed'`; after `create_research_plan` the
stored plan's `sub_tasks` still carry `'completed'` — the stamping loop
reads the unused key `'sub_task'` (singular), so statuses are not
re-stamped to `'pending'`. -/
theorem C7_backend_status_survives_plan_creation :
    (create_research_plan loadsDone respBraces stFresh).research_plan
      = some planDone ∧
    (planDone.sub_tasks.getD []).map SubTask.status = [some "completed"] := by
  constructor
  · decide
  · decide

theorem keyLex_refl (a : Int × Int) : keyLex a a := by
  unfold keyLex; omega

theorem keyLex_trans {a b c : Int × Int} (h1 : keyLex a b) (h2 : keyLex b c) :
    keyLex a c := by
  unfold keyLex at *; omega

theorem keyLex_total (a b : Int × Int) : keyLex a b ∨ keyLex b a := by
  unfold keyLex; omega

theorem taskKeyLe_trans (a b c : SubTask) (h1 : taskKeyLe a b = true)
    (h2 : taskKeyLe b c = true) : taskKeyLe a c = true := by
  simp only [taskKeyLe, decide_eq_true_eq] at *
  exact keyLex_trans h1 h2

theorem taskKeyLe_total (a b : SubTask) : (taskKeyLe a b || taskKeyLe b a) = true := by
  simp only [taskKeyLe, Bool.or_eq_true, decide_eq_true_eq]
  exact keyLex_total _ _

theorem find?_pending_min {l : List SubTask}
    (hs : List.Pairwise (fun a b => taskKeyLe a b = true) l) {t : SubTask}
    (hf : l.find? (fun u => u.status = some "pending") = some t) :
    ∀ u ∈ l, u.status = some "pending" → keyLex (taskKey t) (taskKey u) := by
  induction l with
  | nil => simp at hf
  | cons a l ih =>
      rw [List.find?_cons] at hf
      rcases List.pairwise_cons.mp hs with ⟨ha, hl⟩
      intro u hu hup
      cases hpa : decide (a.status = some "pending") with
      | true =>
          rw [hpa] at hf
          have hta : t = a := by
            injection hf with hf
            exact hf.symm
          subst hta
          rcases List.mem_cons.mp hu with h | h
          · subst h; exact keyLex_refl _
          · have := ha u h
            simpa [taskKeyLe, decide_eq_true_eq] using this
      | false =>
          rw [hpa] at hf
          rcases List.mem_cons.mp hu with h | h
          · subst h
            simp [hup] at hpa
          · exact ih hl hf u h hup

/-- C5: `get_next_task` returns `None` exactly when no subtask of the
plan is pending (vacuously for a `None` plan or a missing `sub_tasks`
list), and any task it returns is a pending task of the plan whose
`(priority default 99, id default 0)` key is lexicographically minimal
among all pending tasks. -/
theorem C5_get_next_task_minimal_pending (st : ResearchState) :
    (get_next_task st = none ↔ ∀ t ∈ planTasks st, t.status ≠ some "pending") ∧
    (∀ t, get_next_task st = some t →
      t ∈ planTasks st ∧ t.status = some "pending" ∧
      ∀ u ∈ planTasks st, u.status = some "pending" →
        keyLex (taskKey t) (taskKey u)) := by
  cases hplan : st.research_plan with
  | none =>
      constructor
      · simp [get_next_task, planTasks, hplan]
      · intro t ht
        simp [get_next_task, hplan] at ht
  | some plan =>
      have hmem : ∀ a : SubTask,
          a ∈ (plan.sub_tasks.getD []).mergeSort taskKeyLe ↔
          a ∈ plan.sub_tasks.getD [] := fun a => List.mem_mergeSort
      constructor
      · rw [show get_next_task st =
            ((plan.sub_tasks.getD []).mergeSort taskKeyLe).find?
              (fun u => u.status = some "pending") by
            simp [get_next_task, hplan]]
        rw [List.find?_eq_none]
        constructor
        · intro h t ht hp
          have := h t ((hmem t).mpr (by simpa [planTasks, hplan] using ht))
          simp [hp] at this
        · intro h t ht
          have hp := h t (by simpa [planTasks, hplan] using (hmem t).mp ht)
          simpa using hp
      · intro t ht
        have hfind : ((plan.sub_tasks.getD []).mergeSort taskKeyLe).find?
            (fun u => u.status = some "pending") = some t := by
          simpa [get_next_task, hplan] using ht
        have hsorted := List.sorted_mergeSort taskKeyLe_trans taskKeyLe_total
          (plan.sub_tasks.getD [])
        refine ⟨?_, ?_, ?_⟩
        · have := List.mem_of_find?_eq_some hfind
          simpa [planTasks, hplan] using (hmem t).mp this
        · have := List.find?_some hfind
          simpa using this
        · intro u hu hup
          exact find?_pending_min hsorted hfind u
            ((hmem u).mpr (by simpa [planTasks, hplan] using hu)) hup

/-- Witness for C5: on a concrete state the returned task is pending,
belongs to the plan, and is key-minimal among pending tasks. -/
theorem C5_witness :
    taskTav ∈ planTasks stTav ∧ taskTav.status = some "pending" ∧
    ∀ u ∈ planTasks stTav, u.status = some "pending" →
      keyLex (taskKey taskTav) (taskKey u) :=
  (C5_get_next_task_minimal_pending stTav).2 taskTav (by
    show (([taskTav].mergeSort taskKeyLe).find?
      (fun u => u.status = some "pending")) = some taskTav
    rw [List.mergeSort_singleton]
    rfl)

theorem execute_task_ok_iteration {r : Researcher} {st : ResearchState}
    {task : SubTask} {st' : ResearchState}
    (h : r.execute_task st task = .ok st') :
    st'.iteration_count = st.iteration_count := by
  unfold Researcher.execute_task at h
  split at h
  · simp at h
  · dsimp only at h
    split at h
    · injection h with h; subst h; rfl
    · split at h
      · injection h with h; subst h; rfl
      · split at h
        · simp at h
        · injection h with h; subst h; rfl

theorem get_next_task_set_step (st : ResearchState) (s : String) :
    get_next_task { st with current_step := s } = get_next_task st := rfl

/-- C6 counterexample: on a state whose plan has no pending subtask, one
invocation of `researcher_node` leaves `iteration_count` unchanged (and
clears `needs_more_research`) — refuting "increases by exactly 1
regardless of whether any pending task exists". -/
theorem C6_counterexample :
    researcher_node rStub stDone
      = .ok { stDone with
          current_step := "researching"
          needs_more_research := false } ∧
    stDone.iteration_count = 0 := by
  have hg : get_next_task { stDone with current_step := "researching" } = none := by
    show (([{ task_id := some 1, status := some "completed" }].mergeSort
      taskKeyLe).find? (fun u => u.status = some "pending")) = none
    rw [List.mergeSort_singleton]
    rfl
  constructor
  · unfold researcher_node
    dsimp only
    rw [hg]
  · rfl

/-- C6 amended: when a pending task is selected, one `researcher_node`
invocation that returns normally increases `iteration_count` by exactly
1, independent of the task's `(query, source)` pairs; when no pending
task exists, the state is returned with `iteration_count` unchanged and
`needs_more_research` cleared. -/
theorem C6_iteration_increment (r : Researcher) (st : ResearchState) :
    (∀ task st', get_next_task st = some task →
        researcher_node r st = .ok st' →
        st'.iteration_count = st.iteration_count + 1) ∧
    (get_next_task st = none →
        researcher_node r st = .ok { st with
          current_step := "researching"
          needs_more_research := false }) := by
  have hstep : get_next_task { st with current_step := "researching" }
      = get_next_task st := rfl
  constructor
  · intro task st' htask hnode
    unfold researcher_node at hnode
    dsimp only at hnode
    rw [hstep, htask] at hnode
    dsimp only at hnode
    split at hnode
    · simp at hnode
    · rename_i s2 hex
      injection hnode with hnode
      subst hnode
      have hiter := execute_task_ok_iteration hex
      simpa using hiter
  · intro hnone
    unfold researcher_node
    dsimp only
    rw [hstep, hnone]

/-- Witness for C6's amended theorem: a concrete state with a pending
single-source task gains exactly one iteration. -/
theorem C6_witness :
    (researcher_node rStub stTav).toOption.map ResearchState.iteration_count
      = some (stTav.iteration_count + 1) := by
  have hg : get_next_task stTav = some taskTav := by
    show (([taskTav].mergeSort taskKeyLe).find?
      (fun u => u.status = some "pending")) = some taskTav
    rw [List.mergeSort_singleton]
    rfl
  obtain ⟨X, hnode⟩ : ∃ x, researcher_node rStub stTav = .ok x := by
    unfold researcher_node
    dsimp only
    rw [show get_next_task { stTav with current_step := "researching" }
        = some taskTav from hg]
    exact ⟨_, rfl⟩
  have hinc := (C6_iteration_increment rStub stTav).1 taskTav X hg hnode
  rw [hnode]
  simp [Except.toOption, hinc]

theorem collectLoop_some (r : Researcher) (tid : Int)
    (ps : List (String × String)) :
    collectLoop r (some tid) ps = .ok (collectPure r tid ps) := by
  induction ps with
  | nil => rfl
  | cons a rest ih =>
      rcases a with ⟨q, s⟩
      unfold collectLoop collectPure
      cases hsearch : r.search q s with
      | none => exact ih
      | some res => rw [ih]

theorem markCompleted_some (tid : Int) (l : List SubTask) :
    markCompleted (some tid) l = .ok (markPure tid l) := by
  induction l with
  | nil => rfl
  | cons t ts ih =>
      unfold markCompleted markPure
      dsimp only
      by_cases ht : t.task_id = some tid
      · rw [if_pos ht, if_pos ht]
      · rw [if_neg ht, if_neg ht, ih]

theorem execute_task_eq (r : Researcher) (st : ResearchState) (task : SubTask)
    (tid : Int) (htid : task.task_id = some tid) :
    r.execute_task st task = .ok (markPlan tid
      { st with research_results :=
          st.research_results ++ collectPure r tid (taskPairs task) }) := by
  unfold Researcher.execute_task markPlan
  rw [htid, collectLoop_some]
  dsimp only
  cases hp : st.research_plan with
  | none => rfl
  | some plan =>
      dsimp only
      cases hsub : plan.sub_tasks with
      | none => rfl
      | some l =>
          dsimp only
          rw [markCompleted_some]

theorem markPlan_research_results (tid : Int) (st : ResearchState) :
    (markPlan tid st).research_results = st.research_results := by
  unfold markPlan
  cases hp : st.research_plan with
  | none => rfl
  | some plan =>
      dsimp only
      cases hsub : plan.sub_tasks with
      | none => rfl
      | some l => rfl

theorem markPlan_iteration_count (tid : Int) (st : ResearchState) :
    (markPlan tid st).iteration_count = st.iteration_count := by
  unfold markPlan
  cases hp : st.research_plan with
  | none => rfl
  | some plan =>
      dsimp only
      cases hsub : plan.sub_tasks with
      | none => rfl
      | some l => rfl

theorem markPlan_plan (tid : Int) (st : ResearchState) (plan : PlanJson)
    (l : List SubTask) (hp : st.research_plan = some plan)
    (hsub : plan.sub_tasks = some l) :
    (markPlan tid st).research_plan
      = some { plan with sub_tasks := some (markPure tid l) } := by
  unfold markPlan
  rw [hp]
  dsimp only
  rw [hsub]

theorem pair_mem_taskPairs {task : SubTask} {q s : String}
    (hq : q ∈ task.search_queries.getD []) (hs : s ∈ task.sources.getD []) :
    (q, s) ∈ taskPairs task := by
  unfold taskPairs
  exact List.mem_flatMap.mpr ⟨q, hq, List.mem_map.mpr ⟨s, hs, rfl⟩⟩

theorem taskPairs_source {task : SubTask} {p : String × String}
    (hp : p ∈ taskPairs task) : p.2 ∈ task.sources.getD [] := by
  unfold taskPairs at hp
  rcases List.mem_flatMap.mp hp with ⟨a, _, hb⟩
  rcases List.mem_map.mp hb with ⟨s, hs, hps⟩
  rw [← hps]
  exact hs

theorem mem_collectPure {r : Researcher} {tid : Int}
    {ps : List (String × String)} {q s : String} {res : SearchResult}
    (hp : (q, s) ∈ ps) (hres : r.search q s = some res) :
    { res with task_id := some tid } ∈ collectPure r tid ps := by
  induction ps with
  | nil => simp at hp
  | cons a rest ih =>
      rcases a with ⟨qa, sa⟩
      rcases List.mem_cons.mp hp with h | h
      · injection h with h1 h2
        subst h1; subst h2
        unfold collectPure
        rw [hres]
        exact List.mem_cons_self _ _
      · unfold collectPure
        cases hsa : r.search qa sa with
        | none => exact ih h
        | some res' => exact List.mem_cons_of_mem _ (ih h)

theorem search_raises_eq {r : Researcher} {q s : String}
    (h : searchRaises r q s) :
    ∃ msg, r.search q s
      = some { query := q, source := s, results := [], error := some msg } := by
  unfold searchRaises at h
  unfold Researcher.search
  rcases h with ⟨hs, hconf, msg, hm⟩ | ⟨hs, msg, hm⟩ | ⟨hs, hconf, msg, hm⟩
  · subst hs
    refine ⟨msg, ?_⟩
    rw [if_pos ⟨rfl, hconf⟩, hm]
  · subst hs
    refine ⟨msg, ?_⟩
    have h1 : ¬("arxiv" = "tavily" ∧ r.hasTavily = true) := by simp
    rw [if_neg h1, if_pos rfl, hm]
  · subst hs
    refine ⟨msg, ?_⟩
    have h1 : ¬("mcp" = "tavily" ∧ r.hasTavily = true) := by simp
    have h2 : ¬("mcp" = "arxiv") := by simp
    rw [if_neg h1, if_neg h2, if_pos ⟨rfl, hconf⟩, hm]

theorem search_unsupported {r : Researcher} {s : String}
    (h : sourceUnsupported r s) (q : String) : r.search q s = none := by
  rcases h with ⟨h1, h2, h3⟩
  unfold Researcher.search
  rw [if_neg h1, if_neg h2, if_neg h3]

theorem collectPure_nil {r : Researcher} {tid : Int}
    {ps : List (String × String)}
    (h : ∀ p ∈ ps, r.search p.1 p.2 = none) : collectPure r tid ps = [] := by
  induction ps with
  | nil => rfl
  | cons a rest ih =>
      rcases a with ⟨q, s⟩
      unfold collectPure
      rw [h (q, s) (List.mem_cons_self _ _)]
      exact ih fun p hp => h p (List.mem_cons_of_mem _ hp)

theorem markPure_marks {tid : Int} {l : List SubTask}
    (h : ∃ t ∈ l, t.task_id = some tid) :
    ∃ t' ∈ markPure tid l, t'.task_id = some tid ∧
      t'.status = some "completed" := by
  induction l with
  | nil => simp at h
  | cons a rest ih =>
      unfold markPure
      by_cases ha : a.task_id = some tid
      · rw [if_pos ha]
        exact ⟨{ a with status := some "completed" }, List.mem_cons_self _ _, ha, rfl⟩
      · rw [if_neg ha]
        rcases h with ⟨t, ht, htid⟩
        rcases List.mem_cons.mp ht with h | hmem
        · subst h
          exact absurd htid ha
        · rcases ih ⟨t, hmem, htid⟩ with ⟨t', ht', h1, h2⟩
          exact ⟨t', List.mem_cons_of_mem _ ht', h1, h2⟩

/-- C8: if the tool call for a `(query, source)` pair of the task raises,
`execute_task` returns normally (the exception never propagates), appends
the collected batches — among them an error batch with empty `items`, the
raising pair's query/source, a populated `error` string and the task's id
— to the previously accumulated results (append, never replace), and
still stamps the task completed in the plan. -/
theorem C8_search_failure_recovered (r : Researcher) (st : ResearchState)
    (task : SubTask) (tid : Int) (q s : String)
    (htid : task.task_id = some tid)
    (hq : q ∈ task.search_queries.getD []) (hs : s ∈ task.sources.getD [])
    (hraise : searchRaises r q s) :
    ∃ st' msg,
      r.execute_task st task = .ok st' ∧
      st'.research_results
        = st.research_results ++ collectPure r tid (taskPairs task) ∧
      ({ query := q, source := s, results := [], error := some msg,
         task_id := some tid } : SearchResult) ∈ st'.research_results ∧
      ∀ plan l, st.research_plan = some plan → plan.sub_tasks = some l →
        (∃ t ∈ l, t.task_id = some tid) →
        (st'.research_plan
            = some { plan with sub_tasks := some (markPure tid l) } ∧
          ∃ t' ∈ markPure tid l, t'.task_id = some tid ∧
            t'.status = some "completed") := by
  obtain ⟨msg, hsearch⟩ := search_raises_eq hraise
  refine ⟨markPlan tid { st with research_results :=
      st.research_results ++ collectPure r tid (taskPairs task) }, msg,
    execute_task_eq r st task tid htid, ?_, ?_, ?_⟩
  · rw [markPlan_research_results]
  · rw [markPlan_research_results]
    exact List.mem_append_right _
      (mem_collectPure (pair_mem_taskPairs hq hs) hsearch)
  · intro plan l hp hsub hex
    exact ⟨markPlan_plan tid _ plan l hp hsub, markPure_marks hex⟩

/-- Witness for C8: the configured-but-raising tavily tool on a concrete
task yields the error batch, a normal return, and a completed task. -/
theorem C8_witness :
    ∃ st' msg,
      rExn.execute_task stTav taskTav = .ok st' ∧
      st'.research_results = stTav.research_results
        ++ collectPure rExn 1 (taskPairs taskTav) ∧
      ({ query := "q", source := "tavily", results := [], error := some msg,
         task_id := some 1 } : SearchResult) ∈ st'.research_results ∧
      ∀ plan l, stTav.research_plan = some plan → plan.sub_tasks = some l →
        (∃ t ∈ l, t.task_id = some 1) →
        (st'.research_plan = some { plan with sub_tasks := some (markPure 1 l) } ∧
          ∃ t' ∈ markPure 1 l, t'.task_id = some 1 ∧
            t'.status = some "completed") :=
  C8_search_failure_recovered rExn stTav taskTav 1 "q" "tavily" rfl
    (by decide) (by decide) (Or.inl ⟨rfl, rfl, "boom", rfl⟩)

/-- C10 (implicit): a `(query, source)` pair whose source is unsupported
or whose tool is unconfigured makes `_search` return `None` without
raising; `execute_task` then appends nothing for it — with every source
of the task unsupported, `research_results` is left entirely unchanged —
while the task is still stamped completed and `researcher_node` still
counts the iteration. -/
theorem C10_unsupported_source_dropped (r : Researcher) (st : ResearchState)
    (task : SubTask) (tid : Int) (q s : String)
    (htid : task.task_id = some tid)
    (huns : sourceUnsupported r s) :
    r.search q s = none ∧
    ((∀ s' ∈ task.sources.getD [], sourceUnsupported r s') →
      r.execute_task st task = .ok (markPlan tid st) ∧
      (markPlan tid st).research_results = st.research_results ∧
      (∀ plan l, st.research_plan = some plan → plan.sub_tasks = some l →
        (markPlan tid st).research_plan
          = some { plan with sub_tasks := some (markPure tid l) }) ∧
      (get_next_task st = some task →
        ∃ st'', researcher_node r st = .ok st'' ∧
          st''.iteration_count = st.iteration_count + 1 ∧
          st''.research_results = st.research_results)) := by
  refine ⟨search_unsupported huns q, ?_⟩
  intro hall
  have hnone : ∀ p ∈ taskPairs task, r.search p.1 p.2 = none := fun p hp =>
    search_unsupported (hall p.2 (taskPairs_source hp)) p.1
  have hcp : collectPure r tid (taskPairs task) = [] := collectPure_nil hnone
  have hexec : r.execute_task st task = .ok (markPlan tid st) := by
    rw [execute_task_eq r st task tid htid, hcp, List.append_nil]
  refine ⟨hexec, markPlan_research_results tid st, markPlan_plan tid st, ?_⟩
  intro hnext
  have hexec2 : r.execute_task { st with
      current_step := "researching"
      iteration_count := st.iteration_count + 1 } task
      = .ok (markPlan tid { st with
          current_step := "researching"
          iteration_count := st.iteration_count + 1 }) := by
    rw [execute_task_eq r _ task tid htid, hcp, List.append_nil]
  refine ⟨{ markPlan tid { st with
      current_step := "researching"
      iteration_count := st.iteration_count + 1 } with
      current_task := some task }, ?_, ?_, ?_⟩
  · unfold researcher_node
    dsimp only
    rw [show get_next_task { st with current_step := "researching" }
        = some task from hnext]
    dsimp only
    rw [hexec2]
  · have h1 := markPlan_iteration_count tid { st with
      current_step := "researching"
      iteration_count := st.iteration_count + 1 }
    simpa using h1
  · have h2 := markPlan_research_results tid { st with
      current_step := "researching"
      iteration_count := st.iteration_count + 1 }
    simpa using h2

/-- Witness for C10: the unconfigured tavily tool (no API key) on a
concrete task is dropped silently while the iteration is still
counted. -/
theorem C10_witness :
    rStub.search "q" "tavily" = none ∧
    ((∀ s' ∈ taskTav.sources.getD [], sourceUnsupported rStub s') →
      rStub.execute_task stTav taskTav = .ok (markPlan 1 stTav) ∧
      (markPlan 1 stTav).research_results = stTav.research_results ∧
      (∀ plan l, stTav.research_plan = some plan → plan.sub_tasks = some l →
        (markPlan 1 stTav).research_plan
          = some { plan with sub_tasks := some (markPure 1 l) }) ∧
      (get_next_task stTav = some taskTav →
        ∃ st'', researcher_node rStub stTav = .ok st'' ∧
          st''.iteration_count = stTav.iteration_count + 1 ∧
          st''.research_results = stTav.research_results)) :=
  C10_unsupported_source_dropped rStub stTav taskTav 1 "q" "tavily" rfl
    (by refine ⟨?_, ?_, ?_⟩ <;> simp [rStub])
